import Mathlib

/-!
Shallow embedding of the modUploaderBot session state machine.

The repository contains two near-duplicate variants of the bot:
* `V1` embeds `src/main.go` — authentication is process-wide, held in the
  mutable flag `isFirstTimeSetup` (cleared on the first correct password).
* `V2` embeds `src/unnamed/part_000` — authentication is per-session, held
  in the `authenticated` field of `UploadSession`.

Go side effects are made explicit:
* the Go map `uploadSessions : map[int64]*UploadSession` becomes an
  association list from chat id to session, with `getS`/`putS`/`removeS`;
* Go pointer identity (`&UploadSession{...}` allocates a fresh object) is
  modelled by the `sid` field: every allocation site draws a fresh id from
  the `nextSid` counter of the bot state;
* outbound effects (`c.Send`, `b.File`, `driveManager.uploadFile`,
  `driveManager.listFiles`) become an `Output` trace returned by `step`;
* the fallible network calls (`b.File`, `uploadFile`, `listFiles`) are
  resolved by Boolean oracles carried on the event;
* `time.Now()` becomes a numeric timestamp carried on the event.
-/

namespace ModUploader

/-- Lookup in the session store (Go `uploadSessions[chatID]`). -/
def getS {σ : Type} : List (Int × σ) → Int → Option σ
  | [], _ => none
  | (k', v) :: rest, k => if k' = k then some v else getS rest k

/-- Insert or replace in the session store (Go `uploadSessions[chatID] = s`). -/
def putS {σ : Type} : List (Int × σ) → Int → σ → List (Int × σ)
  | [], k, v => [(k, v)]
  | (k', v') :: rest, k, v =>
    if k' = k then (k, v) :: rest else (k', v') :: putS rest k v

/-- Removal from the session store (Go `delete(uploadSessions, chatID)`). -/
def removeS {σ : Type} : List (Int × σ) → Int → List (Int × σ)
  | [], _ => []
  | (k', v') :: rest, k =>
    if k' = k then removeS rest k else (k', v') :: removeS rest k

/-- The events a conversation can deliver to the bot, one per registered
telebot handler. `now` stands for `time.Now()` at the moment the handler
runs; `downloadOk`/`storeOk` resolve the fallible `b.File` and
`driveManager.uploadFile` network calls; `listOk` resolves `listFiles`. -/
inductive Event where
  | start (chatID : Int)
  | upload (chatID : Int) (now : Nat)
  | done (chatID : Int) (now : Nat)
  | cancel (chatID : Int)
  | document (chatID : Int) (fileName : String) (downloadOk : Bool) (storeOk : Bool)
  | text (chatID : Int) (content : String)
  | list (listOk : Bool)
  | quantity (listOk : Bool)
deriving DecidableEq

/-- The outbound chat replies (`c.Send` calls), by message kind. -/
inductive Reply where
  | welcome
  | promptPassword
  | sessionStarted
  | authRequired
  | noActiveSession
  | wrongFileType
  | progress (fileName : String) (countSoFar : Nat)
  | downloadError
  | storageError
  | uploadSuccess (fileName : String) (newCount : Nat)
  | authSuccess
  | wrongPassword
  | doneSummary (count : Nat) (duration : Nat)
  | cancelledSummary (count : Nat)
  | listResult (listOk : Bool)
  | quantityResult (listOk : Bool)
deriving DecidableEq

/-- Observable effects of one handler run: chat replies and the calls made
to the Telegram file API and the Google Drive gateway. -/
inductive Output where
  | reply (r : Reply)
  | fileDownload (fileName : String)
  | driveUpload (fileName : String)
  | driveList
deriving DecidableEq

/-- Go: `uploadPassword := os.Getenv("upload_password")` followed by the
fallback `if uploadPassword == "" { uploadPassword = "password" }`. -/
def uploadPassword (envVal : String) : String :=
  if envVal = "" then "password" else envVal

/-- Go `strings.HasSuffix(s, post)`: whether `s` ends with `post`. -/
def hasSuffix (s post : String) : Bool :=
  post.data.isSuffixOf s.data

namespace V1

/-- `UploadSession` of `src/main.go`. `sid` is not a Go field: it models
the pointer identity of the `&UploadSession{...}` allocation. -/
structure UploadSession where
  sid : Nat
  chatID : Int
  isActive : Bool
  uploadCount : Nat
  startTime : Nat
deriving DecidableEq

/-- Process state of `src/main.go`: the global `uploadSessions` map and the
global `isFirstTimeSetup` flag; `nextSid` feeds the pointer-identity model. -/
structure BotState where
  uploadSessions : List (Int × UploadSession)
  isFirstTimeSetup : Bool
  nextSid : Nat
deriving DecidableEq

/-- One handler dispatch of `src/main.go`, lines 83–244: given the resolved
`upload_password` environment value, the current process state and an event,
produce the next state and the outputs, mirroring the Go handler bodies. -/
def step (envPw : String) (s : BotState) (e : Event) : BotState × List Output :=
  match e with
  | .start _ => (s, [.reply .welcome])
  | .upload chatID now =>
    ({ s with
        uploadSessions := putS s.uploadSessions chatID
          { sid := s.nextSid, chatID := chatID, isActive := true,
            uploadCount := 0, startTime := now },
        nextSid := s.nextSid + 1 },
      [.reply (if s.isFirstTimeSetup then .promptPassword else .sessionStarted)])
  | .done chatID now =>
    match getS s.uploadSessions chatID with
    | none => (s, [.reply .noActiveSession])
    | some session =>
      if session.isActive then
        ({ s with uploadSessions := removeS s.uploadSessions chatID },
          [.reply (.doneSummary session.uploadCount (now - session.startTime))])
      else (s, [.reply .noActiveSession])
  | .cancel chatID =>
    match getS s.uploadSessions chatID with
    | none => (s, [.reply .noActiveSession])
    | some session =>
      if session.isActive then
        ({ s with uploadSessions := removeS s.uploadSessions chatID },
          [.reply (.cancelledSummary session.uploadCount)])
      else (s, [.reply .noActiveSession])
  | .document chatID fileName downloadOk storeOk =>
    match getS s.uploadSessions chatID with
    | none => (s, [.reply .noActiveSession])
    | some session =>
      if session.isActive then
        if s.isFirstTimeSetup then (s, [.reply .authRequired])
        else if hasSuffix fileName ".jar" then
          if downloadOk then
            if storeOk then
              let incremented := { session with uploadCount := session.uploadCount + 1 }
              ({ s with uploadSessions := putS s.uploadSessions chatID incremented },
                [.reply (.progress fileName session.uploadCount),
                 .fileDownload fileName, .driveUpload fileName,
                 .reply (.uploadSuccess fileName (session.uploadCount + 1))])
            else
              (s, [.reply (.progress fileName session.uploadCount),
                   .fileDownload fileName, .driveUpload fileName,
                   .reply .storageError])
          else
            (s, [.reply (.progress fileName session.uploadCount),
                 .fileDownload fileName, .reply .downloadError])
        else (s, [.reply .wrongFileType])
      else (s, [.reply .noActiveSession])
  | .text chatID content =>
    match getS s.uploadSessions chatID with
    | none => (s, [])
    | some session =>
      if session.isActive then
        if s.isFirstTimeSetup then
          if content = uploadPassword envPw then
            ({ s with isFirstTimeSetup := false }, [.reply .authSuccess])
          else
            ({ s with uploadSessions := removeS s.uploadSessions chatID },
              [.reply .wrongPassword])
        else (s, [])
      else (s, [])
  | .list listOk => (s, [.driveList, .reply (.listResult listOk)])
  | .quantity listOk => (s, [.driveList, .reply (.quantityResult listOk)])

/-- Run a trace of events, discarding the outputs. -/
def run (envPw : String) (s : BotState) (es : List Event) : BotState :=
  es.foldl (fun s e => (step envPw s e).1) s

end V1

namespace V2

/-- `UploadSession` of `src/unnamed/part_000`, with the per-session
`authenticated` field. `sid` models pointer identity as in `V1`. -/
structure UploadSession where
  sid : Nat
  chatID : Int
  isActive : Bool
  uploadCount : Nat
  startTime : Nat
  authenticated : Bool
deriving DecidableEq

/-- Process state of `src/unnamed/part_000`: only the global
`uploadSessions` map (no process-wide flag); `nextSid` feeds the
pointer-identity model. -/
structure BotState where
  uploadSessions : List (Int × UploadSession)
  nextSid : Nat
deriving DecidableEq

/-- One handler dispatch of `src/unnamed/part_000`, lines 75–227. -/
def step (envPw : String) (s : BotState) (e : Event) : BotState × List Output :=
  match e with
  | .start _ => (s, [.reply .welcome])
  | .upload chatID now =>
    ({ s with
        uploadSessions := putS s.uploadSessions chatID
          { sid := s.nextSid, chatID := chatID, isActive := true,
            uploadCount := 0, startTime := now, authenticated := false },
        nextSid := s.nextSid + 1 },
      [.reply .promptPassword])
  | .done chatID now =>
    match getS s.uploadSessions chatID with
    | none => (s, [.reply .noActiveSession])
    | some session =>
      if session.isActive then
        ({ s with uploadSessions := removeS s.uploadSessions chatID },
          [.reply (.doneSummary session.uploadCount (now - session.startTime))])
      else (s, [.reply .noActiveSession])
  | .cancel chatID =>
    match getS s.uploadSessions chatID with
    | none => (s, [.reply .noActiveSession])
    | some session =>
      if session.isActive then
        ({ s with uploadSessions := removeS s.uploadSessions chatID },
          [.reply (.cancelledSummary session.uploadCount)])
      else (s, [.reply .noActiveSession])
  | .document chatID fileName downloadOk storeOk =>
    match getS s.uploadSessions chatID with
    | none => (s, [.reply .noActiveSession])
    | some session =>
      if session.isActive then
        if session.authenticated then
          if hasSuffix fileName ".jar" then
            if downloadOk then
              if storeOk then
                let incremented := { session with uploadCount := session.uploadCount + 1 }
                ({ s with uploadSessions := putS s.uploadSessions chatID incremented },
                  [.reply (.progress fileName session.uploadCount),
                   .fileDownload fileName, .driveUpload fileName,
                   .reply (.uploadSuccess fileName (session.uploadCount + 1))])
              else
                (s, [.reply (.progress fileName session.uploadCount),
                     .fileDownload fileName, .driveUpload fileName,
                     .reply .storageError])
            else
              (s, [.reply (.progress fileName session.uploadCount),
                   .fileDownload fileName, .reply .downloadError])
          else (s, [.reply .wrongFileType])
        else (s, [.reply .authRequired])
      else (s, [.reply .noActiveSession])
  | .text chatID content =>
    match getS s.uploadSessions chatID with
    | none => (s, [])
    | some session =>
      if session.isActive then
        if session.authenticated then (s, [])
        else if content = uploadPassword envPw then
          let authed := { session with authenticated := true }
          ({ s with uploadSessions := putS s.uploadSessions chatID authed },
            [.reply .authSuccess])
        else
          ({ s with uploadSessions := removeS s.uploadSessions chatID },
            [.reply .wrongPassword])
      else (s, [])
  | .list listOk => (s, [.driveList, .reply (.listResult listOk)])
  | .quantity listOk => (s, [.driveList, .reply (.quantityResult listOk)])

/-- Run a trace of events, discarding the outputs. -/
def run (envPw : String) (s : BotState) (es : List Event) : BotState :=
  es.foldl (fun s e => (step envPw s e).1) s

end V2

/-- Outcome triple of one incoming document: file name, download-call
success, storage-call success. -/
def jarSuccess (d : String × Bool × Bool) : Bool :=
  hasSuffix d.1 ".jar" && d.2.1 && d.2.2

/-- Number of documents in a batch that are `.jar` files whose download and
storage calls both succeed. -/
def successCount (docs : List (String × Bool × Bool)) : Nat :=
  docs.countP jarSuccess

/-- The event trace delivering a batch of documents to one conversation. -/
def docEvents (cid : Int) (docs : List (String × Bool × Bool)) : List Event :=
  docs.map fun d => Event.document cid d.1 d.2.1 d.2.2

theorem getS_putS_self {σ : Type} (m : List (Int × σ)) (k : Int) (v : σ) :
    getS (putS m k v) k = some v := by
  induction m with
  | nil => simp [getS, putS]
  | cons p rest ih =>
    by_cases h : p.1 = k
    · simp [getS, putS, h]
    · simp [getS, putS, h, ih]

theorem getS_putS_ne {σ : Type} (m : List (Int × σ)) (k k' : Int) (v : σ)
    (h : k' ≠ k) : getS (putS m k v) k' = getS m k' := by
  have h' : ¬ k = k' := fun hh => h hh.symm
  induction m with
  | nil => simp [getS, putS, h']
  | cons p rest ih =>
    obtain ⟨a, b⟩ := p
    by_cases hp : a = k
    · subst hp
      simp [getS, putS, h']
    · simp [getS, putS, hp, ih]

theorem getS_removeS {σ : Type} (m : List (Int × σ)) (k k' : Int) :
    getS (removeS m k) k' = if k' = k then none else getS m k' := by
  induction m with
  | nil => simp [getS, removeS]
  | cons p rest ih =>
    obtain ⟨a, b⟩ := p
    by_cases hp : a = k
    · rw [removeS, if_pos hp, ih]
      by_cases hk : k' = k
      · rw [if_pos hk, if_pos hk]
      · rw [if_neg hk, if_neg hk, getS, if_neg (fun hh => hk (hh.symm.trans hp))]
    · rw [removeS, if_neg hp, getS]
      by_cases ha : a = k'
      · rw [if_pos ha, if_neg (fun hk => hp (ha.trans hk)), getS, if_pos ha]
      · rw [if_neg ha, ih]
        by_cases hk : k' = k
        · rw [if_pos hk, if_pos hk]
        · rw [if_neg hk, if_neg hk, getS, if_neg ha]

theorem mem_putS {σ : Type} {m : List (Int × σ)} {k : Int} {v : σ}
    {p : Int × σ} (h : p ∈ putS m k v) : p = (k, v) ∨ p ∈ m := by
  induction m with
  | nil => simpa [putS] using h
  | cons q rest ih =>
    by_cases hq : q.1 = k
    · rw [putS, if_pos hq] at h
      rcases List.mem_cons.1 h with h | h
      · exact Or.inl h
      · exact Or.inr (List.mem_cons.2 (Or.inr h))
    · rw [putS, if_neg hq] at h
      rcases List.mem_cons.1 h with h | h
      · exact Or.inr (List.mem_cons.2 (Or.inl h))
      · rcases ih h with h | h
        · exact Or.inl h
        · exact Or.inr (List.mem_cons.2 (Or.inr h))

theorem mem_removeS {σ : Type} {m : List (Int × σ)} {k : Int}
    {p : Int × σ} (h : p ∈ removeS m k) : p ∈ m := by
  induction m with
  | nil => simp [removeS] at h
  | cons q rest ih =>
    by_cases hq : q.1 = k
    · rw [removeS, if_pos hq] at h
      exact List.mem_cons.2 (Or.inr (ih h))
    · rw [removeS, if_neg hq] at h
      rcases List.mem_cons.1 h with h | h
      · exact List.mem_cons.2 (Or.inl h)
      · exact List.mem_cons.2 (Or.inr (ih h))

theorem getS_mem {σ : Type} {m : List (Int × σ)} {k : Int} {v : σ}
    (h : getS m k = some v) : (k, v) ∈ m := by
  induction m with
  | nil => simp [getS] at h
  | cons q rest ih =>
    rw [getS] at h
    by_cases hq : q.1 = k
    · rw [if_pos hq] at h
      cases h
      exact List.mem_cons.2 (Or.inl (by rw [← hq]))
    · rw [if_neg hq] at h
      exact List.mem_cons.2 (Or.inr (ih h))

/-- A binding either survives `putS`, or it was the binding `getS` sees
under the written key (the one `putS` replaces). -/
theorem mem_putS_or {σ : Type} {m : List (Int × σ)} {k : Int} {v : σ}
    {p : Int × σ} (hp : p ∈ m) :
    p ∈ putS m k v ∨ (p.1 = k ∧ getS m k = some p.2) := by
  induction m with
  | nil => cases hp
  | cons q rest ih =>
    obtain ⟨a, b⟩ := q
    by_cases hak : a = k
    · rw [putS, if_pos hak]
      rcases List.mem_cons.1 hp with h | h
      · subst h
        exact Or.inr ⟨hak, by rw [getS, if_pos hak]⟩
      · exact Or.inl (List.mem_cons.2 (Or.inr h))
    · rw [putS, if_neg hak]
      rcases List.mem_cons.1 hp with h | h
      · exact Or.inl (List.mem_cons.2 (Or.inl h))
      · rcases ih h with h2 | ⟨h2a, h2b⟩
        · exact Or.inl (List.mem_cons.2 (Or.inr h2))
        · exact Or.inr ⟨h2a, by rw [getS, if_neg hak]; exact h2b⟩

/-- A binding either survives `removeS`, or its key is the removed one. -/
theorem mem_removeS_or {σ : Type} {m : List (Int × σ)} {k : Int}
    {p : Int × σ} (hp : p ∈ m) : p ∈ removeS m k ∨ p.1 = k := by
  induction m with
  | nil => cases hp
  | cons q rest ih =>
    obtain ⟨a, b⟩ := q
    by_cases hak : a = k
    · rw [removeS, if_pos hak]
      rcases List.mem_cons.1 hp with h | h
      · subst h
        exact Or.inr hak
      · exact ih h
    · rw [removeS, if_neg hak]
      rcases List.mem_cons.1 hp with h | h
      · exact Or.inl (List.mem_cons.2 (Or.inl h))
      · rcases ih h with h2 | h2
        · exact Or.inl (List.mem_cons.2 (Or.inr h2))
        · exact Or.inr h2

/-- The store holds at most one binding per conversation key: a
well-formedness invariant of every reachable store (the empty map has it,
and `putS`/`removeS` preserve it). -/
def keysNodup {σ : Type} (m : List (Int × σ)) : Prop :=
  (m.map Prod.fst).Nodup

/-- With unique keys, every binding is the one `getS` sees under its key. -/
theorem getS_eq_of_mem {σ : Type} {m : List (Int × σ)} (hnd : keysNodup m)
    {p : Int × σ} (hp : p ∈ m) : getS m p.1 = some p.2 := by
  induction m with
  | nil => cases hp
  | cons q rest ih =>
    obtain ⟨a, b⟩ := q
    rw [keysNodup, List.map_cons, List.nodup_cons] at hnd
    rcases List.mem_cons.1 hp with h | h
    · subst h
      rw [getS, if_pos rfl]
    · have hne : a ≠ p.1 := by
        intro hh
        exact hnd.1 (by rw [hh]; exact List.mem_map.2 ⟨p, h, rfl⟩)
      rw [getS, if_neg hne]
      exact ih hnd.2 h

theorem keysNodup_putS {σ : Type} {m : List (Int × σ)} {k : Int} {v : σ}
    (hnd : keysNodup m) : keysNodup (putS m k v) := by
  induction m with
  | nil => simp [putS, keysNodup]
  | cons q rest ih =>
    obtain ⟨a, b⟩ := q
    rw [keysNodup, List.map_cons, List.nodup_cons] at hnd
    by_cases hak : a = k
    · rw [putS, if_pos hak, keysNodup, List.map_cons, List.nodup_cons]
      exact ⟨by rw [← hak]; exact hnd.1, hnd.2⟩
    · rw [putS, if_neg hak, keysNodup, List.map_cons, List.nodup_cons]
      constructor
      · intro hmem
        rcases List.mem_map.1 hmem with ⟨p, hp, hpk⟩
        rcases mem_putS hp with h | h
        · rw [h] at hpk
          exact hak hpk.symm
        · exact hnd.1 (List.mem_map.2 ⟨p, h, hpk⟩)
      · exact ih hnd.2

theorem keysNodup_removeS {σ : Type} {m : List (Int × σ)} {k : Int}
    (hnd : keysNodup m) : keysNodup (removeS m k) := by
  induction m with
  | nil => simp [removeS, keysNodup]
  | cons q rest ih =>
    obtain ⟨a, b⟩ := q
    rw [keysNodup, List.map_cons, List.nodup_cons] at hnd
    by_cases hak : a = k
    · rw [removeS, if_pos hak]
      exact ih hnd.2
    · rw [removeS, if_neg hak, keysNodup, List.map_cons, List.nodup_cons]
      constructor
      · intro hmem
        rcases List.mem_map.1 hmem with ⟨p, hp, hpk⟩
        exact hnd.1 (List.mem_map.2 ⟨p, mem_removeS hp, hpk⟩)
      · exact ih hnd.2

/-- The state of `src/main.go` after a successful `.jar` upload for the
session `sess` of conversation `cid`: the session's count is incremented in
place (Go `session.uploadCount++` through the map's pointer). -/
def V1.bumpCount (s : V1.BotState) (cid : Int) (sess : V1.UploadSession) : V1.BotState :=
  { s with uploadSessions := putS s.uploadSessions cid { sess with uploadCount := sess.uploadCount + 1 } }

/-- The state of `src/unnamed/part_000` after a successful `.jar` upload for
the session `sess` of conversation `cid`. -/
def V2.bumpCount (s : V2.BotState) (cid : Int) (sess : V2.UploadSession) : V2.BotState :=
  { s with uploadSessions := putS s.uploadSessions cid { sess with uploadCount := sess.uploadCount + 1 } }

/-- Characterization of one `OnDocument` dispatch of `src/main.go` for an
active session while the process-wide flag is cleared: the state changes
exactly when the file is a `.jar` and both network calls succeed, and then
only by bumping that session's `uploadCount`. -/
theorem V1.step_document_eq_v1 (envPw : String) (s : V1.BotState) (cid : Int)
    (name : String) (dl st : Bool) (sess : V1.UploadSession)
    (hget : getS s.uploadSessions cid = some sess)
    (hact : sess.isActive = true)
    (hflag : s.isFirstTimeSetup = false) :
    (V1.step envPw s (Event.document cid name dl st)).1 =
      if hasSuffix name ".jar" && dl && st then V1.bumpCount s cid sess else s := by
  cases hjar : hasSuffix name ".jar" <;> cases dl <;> cases st <;>
    simp [V1.step, V1.bumpCount, hget, hact, hflag, hjar]

/-- Characterization of one `OnDocument` dispatch of `src/unnamed/part_000`
for an active, authenticated session: the state changes exactly when the
file is a `.jar` and both network calls succeed, and then only by bumping
that session's `uploadCount`. -/
theorem V2.step_document_eq_v2 (envPw : String) (s : V2.BotState) (cid : Int)
    (name : String) (dl st : Bool) (sess : V2.UploadSession)
    (hget : getS s.uploadSessions cid = some sess)
    (hact : sess.isActive = true)
    (hauth : sess.authenticated = true) :
    (V2.step envPw s (Event.document cid name dl st)).1 =
      if hasSuffix name ".jar" && dl && st then V2.bumpCount s cid sess else s := by
  cases hjar : hasSuffix name ".jar" <;> cases dl <;> cases st <;>
    simp [V2.step, V2.bumpCount, hget, hact, hauth, hjar]

/-- Running a batch of document events of `src/main.go` over an active
session with the flag cleared keeps the session active, keeps its identity,
keeps the flag cleared, and adds exactly the number of successful `.jar`
uploads to its count. -/
theorem V1.run_docEvents_v1 (envPw : String) (cid : Int)
    (docs : List (String × Bool × Bool)) :
    ∀ (s : V1.BotState) (sess : V1.UploadSession),
      getS s.uploadSessions cid = some sess → sess.isActive = true →
      s.isFirstTimeSetup = false →
      ∃ sess',
        getS (V1.run envPw s (docEvents cid docs)).uploadSessions cid = some sess'
        ∧ sess'.isActive = true ∧ sess'.sid = sess.sid
        ∧ sess'.uploadCount = sess.uploadCount + successCount docs
        ∧ (V1.run envPw s (docEvents cid docs)).isFirstTimeSetup = false := by
  induction docs with
  | nil =>
    intro s sess hget hact hflag
    exact ⟨sess, by simpa [V1.run, docEvents] using hget, hact, rfl,
      by simp [successCount], by simpa [V1.run, docEvents] using hflag⟩
  | cons d rest ih =>
    intro s sess hget hact hflag
    have hstep := V1.step_document_eq_v1 envPw s cid d.1 d.2.1 d.2.2 sess hget hact hflag
    have hrun : V1.run envPw s (docEvents cid (d :: rest)) =
        V1.run envPw (V1.step envPw s (Event.document cid d.1 d.2.1 d.2.2)).1
          (docEvents cid rest) := by
      simp [V1.run, docEvents]
    have hjd : jarSuccess d = (hasSuffix d.1 ".jar" && d.2.1 && d.2.2) := rfl
    have hcount : successCount (d :: rest) =
        successCount rest + if jarSuccess d then 1 else 0 :=
      List.countP_cons _ _ _
    cases hjs : hasSuffix d.1 ".jar" && d.2.1 && d.2.2 with
    | false =>
      rw [hjs, if_neg (by simp)] at hstep
      obtain ⟨sess', h1, h2, h3, h4, h5⟩ := ih s sess hget hact hflag
      refine ⟨sess', ?_, h2, h3, ?_, ?_⟩
      · rw [hrun, hstep]; exact h1
      · rw [hcount, hjd, hjs]
        simpa using h4
      · rw [hrun, hstep]; exact h5
    | true =>
      rw [hjs, if_pos rfl] at hstep
      have hget1 : getS (V1.step envPw s
          (Event.document cid d.1 d.2.1 d.2.2)).1.uploadSessions cid =
          some { sess with uploadCount := sess.uploadCount + 1 } := by
        rw [hstep]; exact getS_putS_self _ _ _
      obtain ⟨sess', h1, h2, h3, h4, h5⟩ :=
        ih _ { sess with uploadCount := sess.uploadCount + 1 } hget1 hact
          (by rw [hstep, V1.bumpCount]; exact hflag)
      refine ⟨sess', by rw [hrun]; exact h1, h2, h3, ?_, by rw [hrun]; exact h5⟩
      rw [hcount, hjd, hjs]
      simp only at h4
      simp only [if_pos]
      omega

/-- Running a batch of document events of `src/unnamed/part_000` over an
active, authenticated session keeps the session active and authenticated,
keeps its identity, and adds exactly the number of successful `.jar`
uploads to its count. -/
theorem V2.run_docEvents_v2 (envPw : String) (cid : Int)
    (docs : List (String × Bool × Bool)) :
    ∀ (s : V2.BotState) (sess : V2.UploadSession),
      getS s.uploadSessions cid = some sess → sess.isActive = true →
      sess.authenticated = true →
      ∃ sess',
        getS (V2.run envPw s (docEvents cid docs)).uploadSessions cid = some sess'
        ∧ sess'.isActive = true ∧ sess'.authenticated = true ∧ sess'.sid = sess.sid
        ∧ sess'.uploadCount = sess.uploadCount + successCount docs := by
  induction docs with
  | nil =>
    intro s sess hget hact hauth
    exact ⟨sess, by simpa [V2.run, docEvents] using hget, hact, hauth, rfl,
      by simp [successCount]⟩
  | cons d rest ih =>
    intro s sess hget hact hauth
    have hstep := V2.step_document_eq_v2 envPw s cid d.1 d.2.1 d.2.2 sess hget hact hauth
    have hrun : V2.run envPw s (docEvents cid (d :: rest)) =
        V2.run envPw (V2.step envPw s (Event.document cid d.1 d.2.1 d.2.2)).1
          (docEvents cid rest) := by
      simp [V2.run, docEvents]
    have hjd : jarSuccess d = (hasSuffix d.1 ".jar" && d.2.1 && d.2.2) := rfl
    have hcount : successCount (d :: rest) =
        successCount rest + if jarSuccess d then 1 else 0 :=
      List.countP_cons _ _ _
    cases hjs : hasSuffix d.1 ".jar" && d.2.1 && d.2.2 with
    | false =>
      rw [hjs, if_neg (by simp)] at hstep
      obtain ⟨sess', h1, h2, h3, h4, h5⟩ := ih s sess hget hact hauth
      refine ⟨sess', ?_, h2, h3, h4, ?_⟩
      · rw [hrun, hstep]; exact h1
      · rw [hcount, hjd, hjs]
        simpa using h5
    | true =>
      rw [hjs, if_pos rfl] at hstep
      have hget1 : getS (V2.step envPw s
          (Event.document cid d.1 d.2.1 d.2.2)).1.uploadSessions cid =
          some { sess with uploadCount := sess.uploadCount + 1 } := by
        rw [hstep]; exact getS_putS_self _ _ _
      obtain ⟨sess', h1, h2, h3, h4, h5⟩ :=
        ih _ { sess with uploadCount := sess.uploadCount + 1 } hget1 hact hauth
      refine ⟨sess', by rw [hrun]; exact h1, h2, h3, h4, ?_⟩
      rw [hcount, hjd, hjs]
      simp only at h5
      simp only [if_pos]
      omega

/-- A sample document batch: two successful `.jar` uploads, one wrong file
type, one download failure, one storage failure. -/
def sampleDocs : List (String × Bool × Bool) :=
  [("mod1.jar", true, true), ("readme.txt", true, true), ("mod2.jar", false, true),
   ("mod3.jar", true, false), ("mod4.jar", true, true)]

/-- Claim C1: starting from a fresh authenticated session, after any trace
of document events the session's `uploadCount` equals the number of
documents whose name ends in `.jar` and whose download and storage calls
succeeded; failed and non-`.jar` documents leave the count unchanged. Both
variants: `src/main.go` (process-wide flag cleared) and
`src/unnamed/part_000` (session authenticated). -/
theorem uploadCount_equals_successful_jar_documents (envPw : String) (cid : Int)
    (docs : List (String × Bool × Bool)) :
    (∀ (s : V1.BotState) (sess : V1.UploadSession),
      getS s.uploadSessions cid = some sess → sess.isActive = true →
      s.isFirstTimeSetup = false → sess.uploadCount = 0 →
      ∃ sess',
        getS (V1.run envPw s (docEvents cid docs)).uploadSessions cid = some sess'
        ∧ sess'.uploadCount = successCount docs) ∧
    (∀ (s : V2.BotState) (sess : V2.UploadSession),
      getS s.uploadSessions cid = some sess → sess.isActive = true →
      sess.authenticated = true → sess.uploadCount = 0 →
      ∃ sess',
        getS (V2.run envPw s (docEvents cid docs)).uploadSessions cid = some sess'
        ∧ sess'.uploadCount = successCount docs) := by
  constructor
  · intro s sess hget hact hflag hzero
    obtain ⟨sess', h1, _, _, h4, _⟩ := V1.run_docEvents_v1 envPw cid docs s sess hget hact hflag
    exact ⟨sess', h1, by rw [h4, hzero, Nat.zero_add]⟩
  · intro s sess hget hact hauth hzero
    obtain ⟨sess', h1, _, _, _, h5⟩ := V2.run_docEvents_v2 envPw cid docs s sess hget hact hauth
    exact ⟨sess', h1, by rw [h5, hzero, Nat.zero_add]⟩

theorem uploadCount_equals_successful_jar_documents_witness :
    (∃ sess',
      getS (V1.run "pw" ⟨[((5 : Int), ⟨0, 5, true, 0, 7⟩)], false, 1⟩
        (docEvents 5 sampleDocs)).uploadSessions 5 = some sess'
      ∧ sess'.uploadCount = successCount sampleDocs) ∧
    (∃ sess',
      getS (V2.run "pw" ⟨[((5 : Int), ⟨0, 5, true, 0, 7, true⟩)], 1⟩
        (docEvents 5 sampleDocs)).uploadSessions 5 = some sess'
      ∧ sess'.uploadCount = successCount sampleDocs) :=
  ⟨(uploadCount_equals_successful_jar_documents "pw" 5 sampleDocs).1
      ⟨[((5 : Int), ⟨0, 5, true, 0, 7⟩)], false, 1⟩ ⟨0, 5, true, 0, 7⟩
      (by decide) rfl rfl rfl,
   (uploadCount_equals_successful_jar_documents "pw" 5 sampleDocs).2
      ⟨[((5 : Int), ⟨0, 5, true, 0, 7, true⟩)], 1⟩ ⟨0, 5, true, 0, 7, true⟩
      (by decide) rfl rfl rfl⟩

/-- A sample `src/main.go` state: one active session for chat 0 with two
uploads so far, flag cleared (authenticated). -/
def st1 : V1.BotState := ⟨[((0 : Int), ⟨0, 0, true, 2, 9⟩)], false, 1⟩

/-- A sample `src/unnamed/part_000` state: one active authenticated session
for chat 0 with two uploads so far. -/
def st2 : V2.BotState := ⟨[((0 : Int), ⟨0, 0, true, 2, 9, true⟩)], 1⟩

/-- Claim C3: for an active authenticated session, a `.jar` document whose
download or storage call fails leaves the whole state unchanged (count
unchanged, session still present and active) and sends an error reply, in
both variants. -/
theorem storage_failure_leaves_session_open (envPw : String) (cid : Int)
    (name : String) (dl st : Bool) :
    (∀ (s : V1.BotState) (sess : V1.UploadSession),
      getS s.uploadSessions cid = some sess → sess.isActive = true →
      s.isFirstTimeSetup = false → hasSuffix name ".jar" = true →
      (dl && st) = false →
      (V1.step envPw s (Event.document cid name dl st)).1 = s ∧
      (Output.reply Reply.downloadError ∈ (V1.step envPw s (Event.document cid name dl st)).2
       ∨ Output.reply Reply.storageError ∈ (V1.step envPw s (Event.document cid name dl st)).2)) ∧
    (∀ (s : V2.BotState) (sess : V2.UploadSession),
      getS s.uploadSessions cid = some sess → sess.isActive = true →
      sess.authenticated = true → hasSuffix name ".jar" = true →
      (dl && st) = false →
      (V2.step envPw s (Event.document cid name dl st)).1 = s ∧
      (Output.reply Reply.downloadError ∈ (V2.step envPw s (Event.document cid name dl st)).2
       ∨ Output.reply Reply.storageError ∈ (V2.step envPw s (Event.document cid name dl st)).2)) := by
  constructor
  · intro s sess hget hact hflag hjar hfail
    cases dl with
    | false =>
      refine ⟨by simp [V1.step, hget, hact, hflag, hjar], Or.inl ?_⟩
      simp [V1.step, hget, hact, hflag, hjar]
    | true =>
      cases st with
      | true => simp at hfail
      | false =>
        refine ⟨by simp [V1.step, hget, hact, hflag, hjar], Or.inr ?_⟩
        simp [V1.step, hget, hact, hflag, hjar]
  · intro s sess hget hact hauth hjar hfail
    cases dl with
    | false =>
      refine ⟨by simp [V2.step, hget, hact, hauth, hjar], Or.inl ?_⟩
      simp [V2.step, hget, hact, hauth, hjar]
    | true =>
      cases st with
      | true => simp at hfail
      | false =>
        refine ⟨by simp [V2.step, hget, hact, hauth, hjar], Or.inr ?_⟩
        simp [V2.step, hget, hact, hauth, hjar]

theorem storage_failure_leaves_session_open_witness :
    ((V1.step "pw" st1 (Event.document 0 "a.jar" true false)).1 = st1 ∧
      (Output.reply Reply.downloadError ∈ (V1.step "pw" st1 (Event.document 0 "a.jar" true false)).2
       ∨ Output.reply Reply.storageError ∈ (V1.step "pw" st1 (Event.document 0 "a.jar" true false)).2)) ∧
    ((V2.step "pw" st2 (Event.document 0 "a.jar" true false)).1 = st2 ∧
      (Output.reply Reply.downloadError ∈ (V2.step "pw" st2 (Event.document 0 "a.jar" true false)).2
       ∨ Output.reply Reply.storageError ∈ (V2.step "pw" st2 (Event.document 0 "a.jar" true false)).2)) :=
  ⟨(storage_failure_leaves_session_open "pw" 0 "a.jar" true false).1 st1 ⟨0, 0, true, 2, 9⟩
      (by decide) rfl rfl (by decide) rfl,
   (storage_failure_leaves_session_open "pw" 0 "a.jar" true false).2 st2 ⟨0, 0, true, 2, 9, true⟩
      (by decide) rfl rfl (by decide) rfl⟩

/-- Claim C7: for an active authenticated session, a document whose name
does not end in `.jar` produces exactly one wrong-file-type reply and no
other output (in particular no storage call), and leaves the state — hence
the session and all its fields — unchanged, in both variants. -/
theorem non_jar_document_changes_nothing (envPw : String) (cid : Int)
    (name : String) (dl st : Bool) (hjar : hasSuffix name ".jar" = false) :
    (∀ (s : V1.BotState) (sess : V1.UploadSession),
      getS s.uploadSessions cid = some sess → sess.isActive = true →
      s.isFirstTimeSetup = false →
      V1.step envPw s (Event.document cid name dl st) =
        (s, [Output.reply Reply.wrongFileType])) ∧
    (∀ (s : V2.BotState) (sess : V2.UploadSession),
      getS s.uploadSessions cid = some sess → sess.isActive = true →
      sess.authenticated = true →
      V2.step envPw s (Event.document cid name dl st) =
        (s, [Output.reply Reply.wrongFileType])) := by
  constructor
  · intro s sess hget hact hflag
    simp [V1.step, hget, hact, hflag, hjar]
  · intro s sess hget hact hauth
    simp [V2.step, hget, hact, hauth, hjar]

theorem non_jar_document_changes_nothing_witness :
    V1.step "pw" st1 (Event.document 0 "readme.txt" true true) =
      (st1, [Output.reply Reply.wrongFileType]) ∧
    V2.step "pw" st2 (Event.document 0 "readme.txt" true true) =
      (st2, [Output.reply Reply.wrongFileType]) :=
  ⟨(non_jar_document_changes_nothing "pw" 0 "readme.txt" true true (by decide)).1
      st1 ⟨0, 0, true, 2, 9⟩ (by decide) rfl rfl,
   (non_jar_document_changes_nothing "pw" 0 "readme.txt" true true (by decide)).2
      st2 ⟨0, 0, true, 2, 9, true⟩ (by decide) rfl rfl⟩

/-- Claim C8: a text event with no session, an inactive session, or an
already-authenticated scope (flag cleared in `src/main.go`, session
authenticated in `src/unnamed/part_000`) is ignored: no output is produced
and the state — hence the Session Store — is unchanged. -/
theorem stray_text_is_ignored (envPw : String) (cid : Int) (content : String) :
    (∀ (s : V1.BotState),
      (getS s.uploadSessions cid = none ∨
       (∃ sess, getS s.uploadSessions cid = some sess ∧ sess.isActive = false) ∨
       s.isFirstTimeSetup = false) →
      V1.step envPw s (Event.text cid content) = (s, [])) ∧
    (∀ (s : V2.BotState),
      (getS s.uploadSessions cid = none ∨
       (∃ sess, getS s.uploadSessions cid = some sess ∧ sess.isActive = false) ∨
       (∃ sess, getS s.uploadSessions cid = some sess ∧ sess.authenticated = true)) →
      V2.step envPw s (Event.text cid content) = (s, [])) := by
  constructor
  · intro s h
    rcases h with h | ⟨sess, hget, hact⟩ | hflag
    · simp [V1.step, h]
    · simp [V1.step, hget, hact]
    · cases hget : getS s.uploadSessions cid with
      | none => simp [V1.step, hget]
      | some sess =>
        cases hact : sess.isActive with
        | false => simp [V1.step, hget, hact]
        | true => simp [V1.step, hget, hact, hflag]
  · intro s h
    rcases h with h | ⟨sess, hget, hact⟩ | ⟨sess, hget, hauth⟩
    · simp [V2.step, h]
    · simp [V2.step, hget, hact]
    · cases hact : sess.isActive with
      | false => simp [V2.step, hget, hact]
      | true => simp [V2.step, hget, hact, hauth]

theorem stray_text_is_ignored_witness :
    V1.step "pw" st1 (Event.text 0 "hello") = (st1, []) ∧
    V2.step "pw" st2 (Event.text 0 "hello") = (st2, []) :=
  ⟨(stray_text_is_ignored "pw" 0 "hello").1 st1 (Or.inr (Or.inr rfl)),
   (stray_text_is_ignored "pw" 0 "hello").2 st2
      (Or.inr (Or.inr ⟨⟨0, 0, true, 2, 9, true⟩, by decide, rfl⟩))⟩

/-- Claim C9: in every state, `/upload` unconditionally installs a fresh
active session with `uploadCount = 0` for the conversation, replacing
whatever session was there, and its only output is the password prompt or
the ready-to-upload reply — never a finished or cancelled summary. -/
theorem upload_installs_fresh_session (envPw : String) (cid : Int) (now : Nat) :
    (∀ s : V1.BotState,
      getS (V1.step envPw s (Event.upload cid now)).1.uploadSessions cid =
        some ⟨s.nextSid, cid, true, 0, now⟩ ∧
      ((V1.step envPw s (Event.upload cid now)).2 = [Output.reply Reply.promptPassword] ∨
       (V1.step envPw s (Event.upload cid now)).2 = [Output.reply Reply.sessionStarted])) ∧
    (∀ s : V2.BotState,
      getS (V2.step envPw s (Event.upload cid now)).1.uploadSessions cid =
        some ⟨s.nextSid, cid, true, 0, now, false⟩ ∧
      (V2.step envPw s (Event.upload cid now)).2 = [Output.reply Reply.promptPassword]) := by
  constructor
  · intro s
    constructor
    · show getS (putS s.uploadSessions cid _) cid = _
      exact getS_putS_self _ _ _
    · cases hf : s.isFirstTimeSetup
      · right; simp [V1.step, hf]
      · left; simp [V1.step, hf]
  · intro s
    constructor
    · show getS (putS s.uploadSessions cid _) cid = _
      exact getS_putS_self _ _ _
    · simp [V2.step]

/-- Claim C4: while a session awaits the password, a text that differs from
the configured password removes the session and replies with the rejection;
a following `/upload` creates a brand-new session with `uploadCount = 0`.
Both variants. -/
theorem wrong_password_destroys_session (envPw : String) (cid : Int)
    (content : String) (now : Nat) (hpw : content ≠ uploadPassword envPw) :
    (∀ (s : V1.BotState) (sess : V1.UploadSession),
      getS s.uploadSessions cid = some sess → sess.isActive = true →
      s.isFirstTimeSetup = true →
      getS (V1.step envPw s (Event.text cid content)).1.uploadSessions cid = none ∧
      (V1.step envPw s (Event.text cid content)).2 = [Output.reply Reply.wrongPassword] ∧
      getS (V1.run envPw s [Event.text cid content, Event.upload cid now]).uploadSessions cid
        = some ⟨s.nextSid, cid, true, 0, now⟩) ∧
    (∀ (s : V2.BotState) (sess : V2.UploadSession),
      getS s.uploadSessions cid = some sess → sess.isActive = true →
      sess.authenticated = false →
      getS (V2.step envPw s (Event.text cid content)).1.uploadSessions cid = none ∧
      (V2.step envPw s (Event.text cid content)).2 = [Output.reply Reply.wrongPassword] ∧
      getS (V2.run envPw s [Event.text cid content, Event.upload cid now]).uploadSessions cid
        = some ⟨s.nextSid, cid, true, 0, now, false⟩) := by
  constructor
  · intro s sess hget hact hflag
    have hstep : V1.step envPw s (Event.text cid content) =
        ({ s with uploadSessions := removeS s.uploadSessions cid },
          [Output.reply Reply.wrongPassword]) := by
      simp [V1.step, hget, hact, hflag, hpw]
    have hrun : V1.run envPw s [Event.text cid content, Event.upload cid now] =
        (V1.step envPw (V1.step envPw s (Event.text cid content)).1
          (Event.upload cid now)).1 := by
      simp [V1.run]
    refine ⟨?_, by rw [hstep], ?_⟩
    · rw [hstep]
      simp [getS_removeS]
    · rw [hrun, hstep]
      show getS (putS _ cid _) cid = _
      exact getS_putS_self _ _ _
  · intro s sess hget hact hauth
    have hstep : V2.step envPw s (Event.text cid content) =
        ({ s with uploadSessions := removeS s.uploadSessions cid },
          [Output.reply Reply.wrongPassword]) := by
      simp [V2.step, hget, hact, hauth, hpw]
    have hrun : V2.run envPw s [Event.text cid content, Event.upload cid now] =
        (V2.step envPw (V2.step envPw s (Event.text cid content)).1
          (Event.upload cid now)).1 := by
      simp [V2.run]
    refine ⟨?_, by rw [hstep], ?_⟩
    · rw [hstep]
      simp [getS_removeS]
    · rw [hrun, hstep]
      show getS (putS _ cid _) cid = _
      exact getS_putS_self _ _ _

/-- A sample `src/main.go` state with a session awaiting the password:
session active, flag still set. -/
def st3 : V1.BotState := ⟨[((0 : Int), ⟨0, 0, true, 0, 3⟩)], true, 1⟩

/-- A sample `src/unnamed/part_000` state with a session awaiting the
password: session active, not yet authenticated. -/
def st4 : V2.BotState := ⟨[((0 : Int), ⟨0, 0, true, 0, 3, false⟩)], 1⟩

theorem wrong_password_destroys_session_witness :
    (getS (V1.step "pw" st3 (Event.text 0 "nope")).1.uploadSessions 0 = none ∧
      (V1.step "pw" st3 (Event.text 0 "nope")).2 = [Output.reply Reply.wrongPassword] ∧
      getS (V1.run "pw" st3 [Event.text 0 "nope", Event.upload 0 11]).uploadSessions 0
        = some ⟨st3.nextSid, 0, true, 0, 11⟩) ∧
    (getS (V2.step "pw" st4 (Event.text 0 "nope")).1.uploadSessions 0 = none ∧
      (V2.step "pw" st4 (Event.text 0 "nope")).2 = [Output.reply Reply.wrongPassword] ∧
      getS (V2.run "pw" st4 [Event.text 0 "nope", Event.upload 0 11]).uploadSessions 0
        = some ⟨st4.nextSid, 0, true, 0, 11, false⟩) :=
  ⟨(wrong_password_destroys_session "pw" 0 "nope" 11 (by decide)).1 st3 ⟨0, 0, true, 0, 3⟩
      (by decide) rfl rfl,
   (wrong_password_destroys_session "pw" 0 "nope" 11 (by decide)).2 st4 ⟨0, 0, true, 0, 3, false⟩
      (by decide) rfl rfl⟩

/-- Claim C6: while a session awaits the password, a text equal to the
configured password marks the scope authenticated (flag cleared in
`src/main.go`; session field set in `src/unnamed/part_000`) and replies
with the success message; afterwards a fresh `/upload` skips the prompt in
the process-wide variant and re-prompts in the per-conversation variant. -/
theorem correct_password_authenticates (envPw : String) (cid cid' : Int)
    (content : String) (now : Nat) (hpw : content = uploadPassword envPw) :
    (∀ (s : V1.BotState) (sess : V1.UploadSession),
      getS s.uploadSessions cid = some sess → sess.isActive = true →
      s.isFirstTimeSetup = true →
      (V1.step envPw s (Event.text cid content)).1 =
        { s with isFirstTimeSetup := false } ∧
      (V1.step envPw s (Event.text cid content)).2 = [Output.reply Reply.authSuccess] ∧
      (V1.step envPw (V1.step envPw s (Event.text cid content)).1
        (Event.upload cid' now)).2 = [Output.reply Reply.sessionStarted]) ∧
    (∀ (s : V2.BotState) (sess : V2.UploadSession),
      getS s.uploadSessions cid = some sess → sess.isActive = true →
      sess.authenticated = false →
      getS (V2.step envPw s (Event.text cid content)).1.uploadSessions cid =
        some { sess with authenticated := true } ∧
      (V2.step envPw s (Event.text cid content)).2 = [Output.reply Reply.authSuccess] ∧
      (V2.step envPw (V2.step envPw s (Event.text cid content)).1
        (Event.upload cid' now)).2 = [Output.reply Reply.promptPassword]) := by
  constructor
  · intro s sess hget hact hflag
    have hstep : V1.step envPw s (Event.text cid content) =
        ({ s with isFirstTimeSetup := false }, [Output.reply Reply.authSuccess]) := by
      simp [V1.step, hget, hact, hflag, hpw]
    exact ⟨by rw [hstep], by rw [hstep], by rw [hstep]; simp [V1.step]⟩
  · intro s sess hget hact hauth
    have hstep : V2.step envPw s (Event.text cid content) =
        ({ s with uploadSessions := putS s.uploadSessions cid { sess with authenticated := true } }, [Output.reply Reply.authSuccess]) := by
      simp [V2.step, hget, hact, hauth, hpw]
    refine ⟨?_, by rw [hstep], by rw [hstep]; simp [V2.step]⟩
    rw [hstep]
    show getS (putS _ cid _) cid = _
    exact getS_putS_self _ _ _

theorem correct_password_authenticates_witness :
    ((V1.step "pw" st3 (Event.text 0 "pw")).1 = { st3 with isFirstTimeSetup := false } ∧
      (V1.step "pw" st3 (Event.text 0 "pw")).2 = [Output.reply Reply.authSuccess] ∧
      (V1.step "pw" (V1.step "pw" st3 (Event.text 0 "pw")).1
        (Event.upload 1 11)).2 = [Output.reply Reply.sessionStarted]) ∧
    (getS (V2.step "pw" st4 (Event.text 0 "pw")).1.uploadSessions 0 =
        some ⟨0, 0, true, 0, 3, true⟩ ∧
      (V2.step "pw" st4 (Event.text 0 "pw")).2 = [Output.reply Reply.authSuccess] ∧
      (V2.step "pw" (V2.step "pw" st4 (Event.text 0 "pw")).1
        (Event.upload 1 11)).2 = [Output.reply Reply.promptPassword]) :=
  ⟨(correct_password_authenticates "pw" 0 1 "pw" 11 (by decide)).1 st3 ⟨0, 0, true, 0, 3⟩
      (by decide) rfl rfl,
   (correct_password_authenticates "pw" 0 1 "pw" 11 (by decide)).2 st4 ⟨0, 0, true, 0, 3, false⟩
      (by decide) rfl rfl⟩

/-- A Boolean predicate holds of every store entry after `putS` if it held
before and holds of the new entry. -/
theorem all_putS {σ : Type} {q : Int × σ → Bool} {m : List (Int × σ)} {k : Int}
    {v : σ} (hm : m.all q = true) (hv : q (k, v) = true) :
    (putS m k v).all q = true := by
  rw [List.all_eq_true] at hm ⊢
  intro p hp
  rcases mem_putS hp with h | h
  · rw [h]; exact hv
  · exact hm p h

/-- A Boolean predicate holds of every store entry after `removeS` if it
held before. -/
theorem all_removeS {σ : Type} {q : Int × σ → Bool} {m : List (Int × σ)}
    {k : Int} (hm : m.all q = true) : (removeS m k).all q = true := by
  rw [List.all_eq_true] at hm ⊢
  exact fun p hp => hm p (mem_removeS hp)

/-- Whether some session in the store has the given allocation id, i.e.
whether that session object is still reachable from the store. -/
def anySid {σ : Type} (sidOf : σ → Nat) (m : List (Int × σ)) (x : Nat) : Bool :=
  m.any fun p => sidOf p.2 == x

/-- Replacing the session under key `c` by a session with the same
allocation id keeps every reachable id reachable. -/
theorem anySid_putS {σ : Type} (sidOf : σ → Nat) (m : List (Int × σ)) :
    ∀ (c : Int) (sess v : σ), getS m c = some sess → sidOf v = sidOf sess →
    ∀ x, anySid sidOf m x = true → anySid sidOf (putS m c v) x = true := by
  induction m with
  | nil => intro c sess v hget; simp [getS] at hget
  | cons p rest ih =>
    intro c sess v hget hsid x h
    obtain ⟨a, b⟩ := p
    rw [getS] at hget
    by_cases hac : a = c
    · rw [if_pos hac] at hget
      injection hget with hb
      subst hb
      rw [putS, if_pos hac]
      simp only [anySid, List.any_cons, Bool.or_eq_true] at h ⊢
      rcases h with hb | hr
      · exact Or.inl (by rw [hsid]; exact hb)
      · exact Or.inr hr
    · rw [if_neg hac] at hget
      rw [putS, if_neg hac]
      simp only [anySid, List.any_cons, Bool.or_eq_true] at h ⊢
      rcases h with hb | hr
      · exact Or.inl hb
      · exact Or.inr (ih c sess v hget hsid x hr)

/-- Every allocation id in the store of `src/main.go` is below the
allocation counter: fresh allocations are really fresh. -/
def V1.sidsFresh (s : V1.BotState) : Bool :=
  s.uploadSessions.all fun p => p.2.sid < s.nextSid

/-- Every allocation id in the store of `src/unnamed/part_000` is below
the allocation counter. -/
def V2.sidsFresh (s : V2.BotState) : Bool :=
  s.uploadSessions.all fun p => p.2.sid < s.nextSid

theorem V1.sidsFresh_lt_v1 {s : V1.BotState} (h : V1.sidsFresh s = true)
    {cid : Int} {sess : V1.UploadSession}
    (hget : getS s.uploadSessions cid = some sess) : sess.sid < s.nextSid := by
  have := List.all_eq_true.1 h _ (getS_mem hget)
  exact of_decide_eq_true this

theorem V2.sidsFresh_lt_v2 {s : V2.BotState} (h : V2.sidsFresh s = true)
    {cid : Int} {sess : V2.UploadSession}
    (hget : getS s.uploadSessions cid = some sess) : sess.sid < s.nextSid := by
  have := List.all_eq_true.1 h _ (getS_mem hget)
  exact of_decide_eq_true this

/-- Exhaustive case analysis on how one dispatch of `src/main.go` changes
the session store: it is untouched; or `/upload` replaces one conversation's
binding by a fresh inactive-count session; or a successful `.jar` upload
bumps the count of an active session while the flag is cleared; or a
`/done`, `/cancel` or wrong-password text removes one conversation's
binding. The allocation counter moves only on `/upload`. -/
theorem V1.step_store_cases_v1 (envPw : String) (s : V1.BotState) (e : Event) :
    ((V1.step envPw s e).1.uploadSessions = s.uploadSessions ∧
      (V1.step envPw s e).1.nextSid = s.nextSid)
    ∨ (∃ c n, e = Event.upload c n ∧
        (V1.step envPw s e).1.uploadSessions =
          putS s.uploadSessions c ⟨s.nextSid, c, true, 0, n⟩ ∧
        (V1.step envPw s e).1.nextSid = s.nextSid + 1)
    ∨ (∃ c sess, getS s.uploadSessions c = some sess ∧ sess.isActive = true ∧
        s.isFirstTimeSetup = false ∧
        (V1.step envPw s e).1.uploadSessions =
          putS s.uploadSessions c { sess with uploadCount := sess.uploadCount + 1 } ∧
        (V1.step envPw s e).1.nextSid = s.nextSid)
    ∨ (∃ c sess, getS s.uploadSessions c = some sess ∧ sess.isActive = true ∧
        (V1.step envPw s e).1.uploadSessions = removeS s.uploadSessions c ∧
        (V1.step envPw s e).1.nextSid = s.nextSid ∧
        ((∃ n, e = Event.done c n) ∨ e = Event.cancel c ∨
         (∃ t, e = Event.text c t ∧ s.isFirstTimeSetup = true ∧
           t ≠ uploadPassword envPw))) := by
  cases e with
  | start c => exact Or.inl ⟨rfl, rfl⟩
  | upload c n => exact Or.inr (Or.inl ⟨c, n, rfl, rfl, rfl⟩)
  | list ok => exact Or.inl ⟨rfl, rfl⟩
  | quantity ok => exact Or.inl ⟨rfl, rfl⟩
  | done c n =>
    cases hc : getS s.uploadSessions c with
    | none => left; constructor <;> simp [V1.step, hc]
    | some session =>
      cases hact : session.isActive with
      | false => left; constructor <;> simp [V1.step, hc, hact]
      | true =>
        right; right; right
        refine ⟨c, session, ?_, ?_, ?_, ?_, Or.inl ⟨n, rfl⟩⟩ <;>
          simp [V1.step, hc, hact]
  | cancel c =>
    cases hc : getS s.uploadSessions c with
    | none => left; constructor <;> simp [V1.step, hc]
    | some session =>
      cases hact : session.isActive with
      | false => left; constructor <;> simp [V1.step, hc, hact]
      | true =>
        right; right; right
        refine ⟨c, session, ?_, ?_, ?_, ?_, Or.inr (Or.inl rfl)⟩ <;>
          simp [V1.step, hc, hact]
  | document c name dl st =>
    cases hc : getS s.uploadSessions c with
    | none => left; constructor <;> simp [V1.step, hc]
    | some session =>
      cases hact : session.isActive with
      | false => left; constructor <;> simp [V1.step, hc, hact]
      | true =>
        cases hf : s.isFirstTimeSetup with
        | true => left; constructor <;> simp [V1.step, hc, hact, hf]
        | false =>
          cases hjar : hasSuffix name ".jar" with
          | false => left; constructor <;> simp [V1.step, hc, hact, hf, hjar]
          | true =>
            cases dl with
            | false => left; constructor <;> simp [V1.step, hc, hact, hf, hjar]
            | true =>
              cases st with
              | false => left; constructor <;> simp [V1.step, hc, hact, hf, hjar]
              | true =>
                right; right; left
                refine ⟨c, session, ?_, hact, ?_, ?_, ?_⟩ <;>
                  simp [V1.step, hc, hact, hf, hjar]
  | text c content =>
    cases hc : getS s.uploadSessions c with
    | none => left; constructor <;> simp [V1.step, hc]
    | some session =>
      cases hact : session.isActive with
      | false => left; constructor <;> simp [V1.step, hc, hact]
      | true =>
        cases hf : s.isFirstTimeSetup with
        | false => left; constructor <;> simp [V1.step, hc, hact, hf]
        | true =>
          by_cases hpw : content = uploadPassword envPw
          · left; constructor <;> simp [V1.step, hc, hact, hf, hpw]
          · right; right; right
            refine ⟨c, session, ?_, ?_, ?_, ?_,
              Or.inr (Or.inr ⟨content, rfl, ?_, hpw⟩)⟩ <;>
              simp [V1.step, hc, hact, hf, hpw]

/-- Exhaustive case analysis on how one dispatch of `src/unnamed/part_000`
changes the session store: it is untouched; or `/upload` replaces one
conversation's binding by a fresh unauthenticated session; or a successful
`.jar` upload bumps the count of an active authenticated session; or the
correct password marks an active unauthenticated session authenticated in
place; or a `/done`, `/cancel` or wrong-password text removes one
conversation's binding. The allocation counter moves only on `/upload`. -/
theorem V2.step_store_cases_v2 (envPw : String) (s : V2.BotState) (e : Event) :
    ((V2.step envPw s e).1.uploadSessions = s.uploadSessions ∧
      (V2.step envPw s e).1.nextSid = s.nextSid)
    ∨ (∃ c n, e = Event.upload c n ∧
        (V2.step envPw s e).1.uploadSessions =
          putS s.uploadSessions c ⟨s.nextSid, c, true, 0, n, false⟩ ∧
        (V2.step envPw s e).1.nextSid = s.nextSid + 1)
    ∨ (∃ c sess, getS s.uploadSessions c = some sess ∧ sess.isActive = true ∧
        sess.authenticated = true ∧
        (V2.step envPw s e).1.uploadSessions =
          putS s.uploadSessions c { sess with uploadCount := sess.uploadCount + 1 } ∧
        (V2.step envPw s e).1.nextSid = s.nextSid)
    ∨ (∃ c sess, getS s.uploadSessions c = some sess ∧ sess.isActive = true ∧
        sess.authenticated = false ∧
        (V2.step envPw s e).1.uploadSessions =
          putS s.uploadSessions c { sess with authenticated := true } ∧
        (V2.step envPw s e).1.nextSid = s.nextSid)
    ∨ (∃ c sess, getS s.uploadSessions c = some sess ∧ sess.isActive = true ∧
        (V2.step envPw s e).1.uploadSessions = removeS s.uploadSessions c ∧
        (V2.step envPw s e).1.nextSid = s.nextSid ∧
        ((∃ n, e = Event.done c n) ∨ e = Event.cancel c ∨
         (∃ t, e = Event.text c t ∧ sess.authenticated = false ∧
           t ≠ uploadPassword envPw))) := by
  cases e with
  | start c => exact Or.inl ⟨rfl, rfl⟩
  | upload c n => exact Or.inr (Or.inl ⟨c, n, rfl, rfl, rfl⟩)
  | list ok => exact Or.inl ⟨rfl, rfl⟩
  | quantity ok => exact Or.inl ⟨rfl, rfl⟩
  | done c n =>
    cases hc : getS s.uploadSessions c with
    | none => left; constructor <;> simp [V2.step, hc]
    | some session =>
      cases hact : session.isActive with
      | false => left; constructor <;> simp [V2.step, hc, hact]
      | true =>
        right; right; right; right
        refine ⟨c, session, ?_, ?_, ?_, ?_, Or.inl ⟨n, rfl⟩⟩ <;>
          simp [V2.step, hc, hact]
  | cancel c =>
    cases hc : getS s.uploadSessions c with
    | none => left; constructor <;> simp [V2.step, hc]
    | some session =>
      cases hact : session.isActive with
      | false => left; constructor <;> simp [V2.step, hc, hact]
      | true =>
        right; right; right; right
        refine ⟨c, session, ?_, ?_, ?_, ?_, Or.inr (Or.inl rfl)⟩ <;>
          simp [V2.step, hc, hact]
  | document c name dl st =>
    cases hc : getS s.uploadSessions c with
    | none => left; constructor <;> simp [V2.step, hc]
    | some session =>
      cases hact : session.isActive with
      | false => left; constructor <;> simp [V2.step, hc, hact]
      | true =>
        cases hauth : session.authenticated with
        | false => left; constructor <;> simp [V2.step, hc, hact, hauth]
        | true =>
          cases hjar : hasSuffix name ".jar" with
          | false => left; constructor <;> simp [V2.step, hc, hact, hauth, hjar]
          | true =>
            cases dl with
            | false => left; constructor <;> simp [V2.step, hc, hact, hauth, hjar]
            | true =>
              cases st with
              | false => left; constructor <;> simp [V2.step, hc, hact, hauth, hjar]
              | true =>
                right; right; left
                refine ⟨c, session, ?_, hact, ?_, ?_, ?_⟩ <;>
                  simp [V2.step, hc, hact, hauth, hjar]
  | text c content =>
    cases hc : getS s.uploadSessions c with
    | none => left; constructor <;> simp [V2.step, hc]
    | some session =>
      cases hact : session.isActive with
      | false => left; constructor <;> simp [V2.step, hc, hact]
      | true =>
        cases hauth : session.authenticated with
        | true => left; constructor <;> simp [V2.step, hc, hact, hauth]
        | false =>
          by_cases hpw : content = uploadPassword envPw
          · right; right; right; left
            refine ⟨c, session, ?_, hact, ?_, ?_, ?_⟩ <;>
              simp [V2.step, hc, hact, hauth, hpw]
          · right; right; right; right
            refine ⟨c, session, ?_, ?_, ?_, ?_,
              Or.inr (Or.inr ⟨content, rfl, ?_, hpw⟩)⟩ <;>
              simp [V2.step, hc, hact, hauth, hpw]

/-- Claim C2: tracking a session object by its allocation id, its
`uploadCount` never decreases across an event, and it strictly increases
only when the event was processed while the session was active and the
authentication condition of its scope held (`isFirstTimeSetup` cleared in
`src/main.go`; `session.authenticated` in `src/unnamed/part_000`). -/
theorem uploadCount_never_decreases (envPw : String) (e : Event) (cid : Int) :
    (∀ (s : V1.BotState) (sess sess' : V1.UploadSession),
      V1.sidsFresh s = true →
      getS s.uploadSessions cid = some sess →
      getS (V1.step envPw s e).1.uploadSessions cid = some sess' →
      sess'.sid = sess.sid →
      sess.uploadCount ≤ sess'.uploadCount ∧
      (sess.uploadCount < sess'.uploadCount →
        sess.isActive = true ∧ s.isFirstTimeSetup = false)) ∧
    (∀ (s : V2.BotState) (sess sess' : V2.UploadSession),
      V2.sidsFresh s = true →
      getS s.uploadSessions cid = some sess →
      getS (V2.step envPw s e).1.uploadSessions cid = some sess' →
      sess'.sid = sess.sid →
      sess.uploadCount ≤ sess'.uploadCount ∧
      (sess.uploadCount < sess'.uploadCount →
        sess.isActive = true ∧ sess.authenticated = true)) := by
  constructor
  · intro s sess sess' hfresh hget hget' hsid
    rcases V1.step_store_cases_v1 envPw s e with ⟨hst, _⟩ | ⟨c, n, _, hst, _⟩ |
      ⟨c, csess, hc, hcact, hcflag, hst, _⟩ | ⟨c, rsess, _, _, hst, _, _⟩
    · rw [hst, hget] at hget'
      injection hget' with h
      subst h
      exact ⟨Nat.le_refl _, fun hlt => absurd hlt (Nat.lt_irrefl _)⟩
    · rw [hst] at hget'
      by_cases hcc : cid = c
      · subst hcc
        rw [getS_putS_self] at hget'
        injection hget' with h
        subst h
        have hsn : s.nextSid = sess.sid := hsid
        have hlt := V1.sidsFresh_lt_v1 hfresh hget
        omega
      · rw [getS_putS_ne _ _ _ _ hcc, hget] at hget'
        injection hget' with h
        subst h
        exact ⟨Nat.le_refl _, fun hlt => absurd hlt (Nat.lt_irrefl _)⟩
    · rw [hst] at hget'
      by_cases hcc : cid = c
      · subst hcc
        rw [hget] at hc
        injection hc with h
        subst h
        rw [getS_putS_self] at hget'
        injection hget' with h
        subst h
        exact ⟨Nat.le_succ _, fun _ => ⟨hcact, hcflag⟩⟩
      · rw [getS_putS_ne _ _ _ _ hcc, hget] at hget'
        injection hget' with h
        subst h
        exact ⟨Nat.le_refl _, fun hlt => absurd hlt (Nat.lt_irrefl _)⟩
    · rw [hst, getS_removeS] at hget'
      by_cases hcc : cid = c
      · rw [if_pos hcc] at hget'
        exact absurd hget' (by simp)
      · rw [if_neg hcc, hget] at hget'
        injection hget' with h
        subst h
        exact ⟨Nat.le_refl _, fun hlt => absurd hlt (Nat.lt_irrefl _)⟩
  · intro s sess sess' hfresh hget hget' hsid
    rcases V2.step_store_cases_v2 envPw s e with ⟨hst, _⟩ | ⟨c, n, _, hst, _⟩ |
      ⟨c, csess, hc, hcact, hcauth, hst, _⟩ | ⟨c, csess, hc, hcact, hcauth, hst, _⟩ |
      ⟨c, rsess, _, _, hst, _, _⟩
    · rw [hst, hget] at hget'
      injection hget' with h
      subst h
      exact ⟨Nat.le_refl _, fun hlt => absurd hlt (Nat.lt_irrefl _)⟩
    · rw [hst] at hget'
      by_cases hcc : cid = c
      · subst hcc
        rw [getS_putS_self] at hget'
        injection hget' with h
        subst h
        have hsn : s.nextSid = sess.sid := hsid
        have hlt := V2.sidsFresh_lt_v2 hfresh hget
        omega
      · rw [getS_putS_ne _ _ _ _ hcc, hget] at hget'
        injection hget' with h
        subst h
        exact ⟨Nat.le_refl _, fun hlt => absurd hlt (Nat.lt_irrefl _)⟩
    · rw [hst] at hget'
      by_cases hcc : cid = c
      · subst hcc
        rw [hget] at hc
        injection hc with h
        subst h
        rw [getS_putS_self] at hget'
        injection hget' with h
        subst h
        exact ⟨Nat.le_succ _, fun _ => ⟨hcact, hcauth⟩⟩
      · rw [getS_putS_ne _ _ _ _ hcc, hget] at hget'
        injection hget' with h
        subst h
        exact ⟨Nat.le_refl _, fun hlt => absurd hlt (Nat.lt_irrefl _)⟩
    · rw [hst] at hget'
      by_cases hcc : cid = c
      · subst hcc
        rw [hget] at hc
        injection hc with h
        subst h
        rw [getS_putS_self] at hget'
        injection hget' with h
        subst h
        exact ⟨Nat.le_refl _, fun hlt => absurd hlt (Nat.lt_irrefl _)⟩
      · rw [getS_putS_ne _ _ _ _ hcc, hget] at hget'
        injection hget' with h
        subst h
        exact ⟨Nat.le_refl _, fun hlt => absurd hlt (Nat.lt_irrefl _)⟩
    · rw [hst, getS_removeS] at hget'
      by_cases hcc : cid = c
      · rw [if_pos hcc] at hget'
        exact absurd hget' (by simp)
      · rw [if_neg hcc, hget] at hget'
        injection hget' with h
        subst h
        exact ⟨Nat.le_refl _, fun hlt => absurd hlt (Nat.lt_irrefl _)⟩

theorem uploadCount_never_decreases_witness :
    ((2 : Nat) ≤ 3 ∧ ((2 : Nat) < 3 → ((true : Bool) = true ∧ (false : Bool) = false))) ∧
    ((2 : Nat) ≤ 3 ∧ ((2 : Nat) < 3 → ((true : Bool) = true ∧ (true : Bool) = true))) :=
  ⟨(uploadCount_never_decreases "pw" (Event.document 0 "a.jar" true true) 0).1
      st1 ⟨0, 0, true, 2, 9⟩ ⟨0, 0, true, 3, 9⟩ (by decide) (by decide) (by decide) rfl,
   (uploadCount_never_decreases "pw" (Event.document 0 "a.jar" true true) 0).2
      st2 ⟨0, 0, true, 2, 9, true⟩ ⟨0, 0, true, 3, 9, true⟩ (by decide) (by decide)
      (by decide) rfl⟩

/-- Whether every session in a `src/main.go` store is active. -/
def V1.allActive (m : List (Int × V1.UploadSession)) : Bool :=
  m.all fun p => p.2.isActive

/-- Whether every session in a `src/unnamed/part_000` store is active. -/
def V2.allActive (m : List (Int × V2.UploadSession)) : Bool :=
  m.all fun p => p.2.isActive

/-- The removal clause of claim C5 as stated, for `src/main.go`: whenever a
session object (tracked by allocation id) present before the event is gone
from the store after it, the event was a finish (`/done`), a cancel
(`/cancel`), or a failed-authentication text — and nothing else. -/
def V1.removalOnlyOnDeactivation (envPw : String) (s : V1.BotState) (e : Event) : Prop :=
  ∀ x, anySid UploadSession.sid s.uploadSessions x = true →
    anySid UploadSession.sid (V1.step envPw s e).1.uploadSessions x = false →
    (∃ c n, e = Event.done c n) ∨ (∃ c, e = Event.cancel c) ∨ (∃ c t, e = Event.text c t)

/-- Counterexample to claim C5: in `st1` conversation 0 holds an active,
authenticated session (allocation id 0, two uploads); `/upload` removes
that session object from the store by replacing it with a fresh one, yet
the event is neither a finish, nor a cancel, nor a failed authentication. -/
theorem session_removed_by_upload_counterexample :
    ¬ V1.removalOnlyOnDeactivation "pw" st1 (Event.upload 0 11) := by
  intro h
  rcases h 0 (by decide) (by decide) with ⟨c, n, hc⟩ | ⟨c, hc⟩ | ⟨c, t, hc⟩ <;>
    exact Event.noConfusion hc

/-- One dispatch of `src/main.go` preserves key-uniqueness of the store,
so `keysNodup` holds in every reachable state (the initial map is empty). -/
theorem V1.step_keysNodup_v1 (envPw : String) (s : V1.BotState) (e : Event)
    (hnd : keysNodup s.uploadSessions) :
    keysNodup (V1.step envPw s e).1.uploadSessions := by
  rcases V1.step_store_cases_v1 envPw s e with ⟨hst, _⟩ | ⟨c, n, _, hst, _⟩ |
    ⟨c, csess, _, _, _, hst, _⟩ | ⟨c, rsess, _, _, hst, _, _⟩
  · rw [hst]; exact hnd
  · rw [hst]; exact keysNodup_putS hnd
  · rw [hst]; exact keysNodup_putS hnd
  · rw [hst]; exact keysNodup_removeS hnd

/-- One dispatch of `src/unnamed/part_000` preserves key-uniqueness of the
store, so `keysNodup` holds in every reachable state. -/
theorem V2.step_keysNodup_v2 (envPw : String) (s : V2.BotState) (e : Event)
    (hnd : keysNodup s.uploadSessions) :
    keysNodup (V2.step envPw s e).1.uploadSessions := by
  rcases V2.step_store_cases_v2 envPw s e with ⟨hst, _⟩ | ⟨c, n, _, hst, _⟩ |
    ⟨c, csess, _, _, _, hst, _⟩ | ⟨c, csess, _, _, _, hst, _⟩ | ⟨c, rsess, _, _, hst, _, _⟩
  · rw [hst]; exact hnd
  · rw [hst]; exact keysNodup_putS hnd
  · rw [hst]; exact keysNodup_putS hnd
  · rw [hst]; exact keysNodup_putS hnd
  · rw [hst]; exact keysNodup_removeS hnd

/-- Claim C5 (amended): every event preserves the invariant that the store
holds only active sessions — there is no inactive-but-retained state — and
a session object leaves the store only when an event addressed to its own
conversation removes it: a finish or cancel of that active session, a
failed authentication (a non-password text while that session awaits the
password), or its replacement by the brand-new session `/upload` installs
for that conversation. Both variants; the store is assumed key-unique,
which `putS`/`removeS` preserve (see the `step_keysNodup_v1`/`step_keysNodup_v2` lemmas). -/
theorem session_removal_accounted (envPw : String) (e : Event) :
    (∀ s : V1.BotState,
      (V1.allActive s.uploadSessions = true →
        V1.allActive (V1.step envPw s e).1.uploadSessions = true) ∧
      (keysNodup s.uploadSessions →
        ∀ x, anySid V1.UploadSession.sid s.uploadSessions x = true →
        anySid V1.UploadSession.sid (V1.step envPw s e).1.uploadSessions x = false →
        ∃ c sess0, getS s.uploadSessions c = some sess0 ∧ sess0.sid = x ∧
          ((((∃ n, e = Event.done c n) ∨ e = Event.cancel c) ∧
              sess0.isActive = true) ∨
           ((∃ t, e = Event.text c t ∧ t ≠ uploadPassword envPw) ∧
              sess0.isActive = true ∧ s.isFirstTimeSetup = true) ∨
           (∃ n, e = Event.upload c n)))) ∧
    (∀ s : V2.BotState,
      (V2.allActive s.uploadSessions = true →
        V2.allActive (V2.step envPw s e).1.uploadSessions = true) ∧
      (keysNodup s.uploadSessions →
        ∀ x, anySid V2.UploadSession.sid s.uploadSessions x = true →
        anySid V2.UploadSession.sid (V2.step envPw s e).1.uploadSessions x = false →
        ∃ c sess0, getS s.uploadSessions c = some sess0 ∧ sess0.sid = x ∧
          ((((∃ n, e = Event.done c n) ∨ e = Event.cancel c) ∧
              sess0.isActive = true) ∨
           ((∃ t, e = Event.text c t ∧ t ≠ uploadPassword envPw) ∧
              sess0.isActive = true ∧ sess0.authenticated = false) ∨
           (∃ n, e = Event.upload c n)))) := by
  constructor
  · intro s
    constructor
    · intro hall
      rcases V1.step_store_cases_v1 envPw s e with ⟨hst, _⟩ | ⟨c, n, _, hst, _⟩ |
        ⟨c, csess, hc, hcact, _, hst, _⟩ | ⟨c, rsess, _, _, hst, _, _⟩
      · rw [hst]; exact hall
      · rw [hst]; exact all_putS hall rfl
      · rw [hst]; exact all_putS hall hcact
      · rw [hst]; exact all_removeS hall
    · intro hnd x hx hx'
      obtain ⟨p, hpmem, hpx⟩ := List.any_eq_true.1 hx
      have hpsid : p.2.sid = x := by simpa using hpx
      rcases V1.step_store_cases_v1 envPw s e with ⟨hst, _⟩ | ⟨c, n, he, hst, _⟩ |
        ⟨c, csess, hc, _, _, hst, _⟩ | ⟨c, rsess, hc, hract, hst, _, hkind⟩
      · rw [hst, hx] at hx'
        exact Bool.noConfusion hx'
      · have hpnotin : p ∉ putS s.uploadSessions c ⟨s.nextSid, c, true, 0, n⟩ := by
          intro hin
          have htrue : anySid V1.UploadSession.sid
              (putS s.uploadSessions c ⟨s.nextSid, c, true, 0, n⟩) x = true :=
            List.any_eq_true.2 ⟨p, hin, hpx⟩
          rw [hst, htrue] at hx'
          exact Bool.noConfusion hx'
        rcases mem_putS_or hpmem with hin | ⟨_, hg⟩
        · exact absurd hin hpnotin
        · exact ⟨c, p.2, hg, hpsid, Or.inr (Or.inr ⟨n, he⟩)⟩
      · have hkeep := anySid_putS V1.UploadSession.sid s.uploadSessions c csess
          { csess with uploadCount := csess.uploadCount + 1 } hc rfl x hx
        rw [hst, hkeep] at hx'
        exact Bool.noConfusion hx'
      · have hpnotin : p ∉ removeS s.uploadSessions c := by
          intro hin
          have htrue : anySid V1.UploadSession.sid (removeS s.uploadSessions c) x = true :=
            List.any_eq_true.2 ⟨p, hin, hpx⟩
          rw [hst, htrue] at hx'
          exact Bool.noConfusion hx'
        rcases mem_removeS_or hpmem with hin | hk
        · exact absurd hin hpnotin
        · have hg : getS s.uploadSessions c = some p.2 := by
            rw [← hk]
            exact getS_eq_of_mem hnd hpmem
          rw [hc] at hg
          injection hg with hps
          rcases hkind with ⟨n, he⟩ | he | ⟨t, he, hf, hpw⟩
          · exact ⟨c, rsess, hc, by rw [hps]; exact hpsid,
              Or.inl ⟨Or.inl ⟨n, he⟩, hract⟩⟩
          · exact ⟨c, rsess, hc, by rw [hps]; exact hpsid,
              Or.inl ⟨Or.inr he, hract⟩⟩
          · exact ⟨c, rsess, hc, by rw [hps]; exact hpsid,
              Or.inr (Or.inl ⟨⟨t, he, hpw⟩, hract, hf⟩)⟩
  · intro s
    constructor
    · intro hall
      rcases V2.step_store_cases_v2 envPw s e with ⟨hst, _⟩ | ⟨c, n, _, hst, _⟩ |
        ⟨c, csess, hc, hcact, _, hst, _⟩ | ⟨c, csess, hc, hcact, _, hst, _⟩ |
        ⟨c, rsess, _, _, hst, _, _⟩
      · rw [hst]; exact hall
      · rw [hst]; exact all_putS hall rfl
      · rw [hst]; exact all_putS hall hcact
      · rw [hst]; exact all_putS hall hcact
      · rw [hst]; exact all_removeS hall
    · intro hnd x hx hx'
      obtain ⟨p, hpmem, hpx⟩ := List.any_eq_true.1 hx
      have hpsid : p.2.sid = x := by simpa using hpx
      rcases V2.step_store_cases_v2 envPw s e with ⟨hst, _⟩ | ⟨c, n, he, hst, _⟩ |
        ⟨c, csess, hc, _, _, hst, _⟩ | ⟨c, csess, hc, _, _, hst, _⟩ |
        ⟨c, rsess, hc, hract, hst, _, hkind⟩
      · rw [hst, hx] at hx'
        exact Bool.noConfusion hx'
      · have hpnotin : p ∉ putS s.uploadSessions c ⟨s.nextSid, c, true, 0, n, false⟩ := by
          intro hin
          have htrue : anySid V2.UploadSession.sid
              (putS s.uploadSessions c ⟨s.nextSid, c, true, 0, n, false⟩) x = true :=
            List.any_eq_true.2 ⟨p, hin, hpx⟩
          rw [hst, htrue] at hx'
          exact Bool.noConfusion hx'
        rcases mem_putS_or hpmem with hin | ⟨_, hg⟩
        · exact absurd hin hpnotin
        · exact ⟨c, p.2, hg, hpsid, Or.inr (Or.inr ⟨n, he⟩)⟩
      · have hkeep := anySid_putS V2.UploadSession.sid s.uploadSessions c csess
          { csess with uploadCount := csess.uploadCount + 1 } hc rfl x hx
        rw [hst, hkeep] at hx'
        exact Bool.noConfusion hx'
      · have hkeep := anySid_putS V2.UploadSession.sid s.uploadSessions c csess
          { csess with authenticated := true } hc rfl x hx
        rw [hst, hkeep] at hx'
        exact Bool.noConfusion hx'
      · have hpnotin : p ∉ removeS s.uploadSessions c := by
          intro hin
          have htrue : anySid V2.UploadSession.sid (removeS s.uploadSessions c) x = true :=
            List.any_eq_true.2 ⟨p, hin, hpx⟩
          rw [hst, htrue] at hx'
          exact Bool.noConfusion hx'
        rcases mem_removeS_or hpmem with hin | hk
        · exact absurd hin hpnotin
        · have hg : getS s.uploadSessions c = some p.2 := by
            rw [← hk]
            exact getS_eq_of_mem hnd hpmem
          rw [hc] at hg
          injection hg with hps
          rcases hkind with ⟨n, he⟩ | he | ⟨t, he, hauth, hpw⟩
          · exact ⟨c, rsess, hc, by rw [hps]; exact hpsid,
              Or.inl ⟨Or.inl ⟨n, he⟩, hract⟩⟩
          · exact ⟨c, rsess, hc, by rw [hps]; exact hpsid,
              Or.inl ⟨Or.inr he, hract⟩⟩
          · exact ⟨c, rsess, hc, by rw [hps]; exact hpsid,
              Or.inr (Or.inl ⟨⟨t, he, hpw⟩, hract, hauth⟩)⟩

theorem session_removal_accounted_witness :
    (V1.allActive (V1.step "pw" st1 (Event.cancel 0)).1.uploadSessions = true ∧
      (∃ c sess0, getS st1.uploadSessions c = some sess0 ∧ sess0.sid = 0 ∧
        ((((∃ n, Event.cancel 0 = Event.done c n) ∨ Event.cancel 0 = Event.cancel c) ∧
            sess0.isActive = true) ∨
         ((∃ t, Event.cancel 0 = Event.text c t ∧ t ≠ uploadPassword "pw") ∧
            sess0.isActive = true ∧ st1.isFirstTimeSetup = true) ∨
         (∃ n, Event.cancel 0 = Event.upload c n)))) ∧
    (V2.allActive (V2.step "pw" st2 (Event.cancel 0)).1.uploadSessions = true ∧
      (∃ c sess0, getS st2.uploadSessions c = some sess0 ∧ sess0.sid = 0 ∧
        ((((∃ n, Event.cancel 0 = Event.done c n) ∨ Event.cancel 0 = Event.cancel c) ∧
            sess0.isActive = true) ∨
         ((∃ t, Event.cancel 0 = Event.text c t ∧ t ≠ uploadPassword "pw") ∧
            sess0.isActive = true ∧ sess0.authenticated = false) ∨
         (∃ n, Event.cancel 0 = Event.upload c n)))) :=
  ⟨⟨((session_removal_accounted "pw" (Event.cancel 0)).1 st1).1 (by decide),
    ((session_removal_accounted "pw" (Event.cancel 0)).1 st1).2
      (by decide : (st1.uploadSessions.map Prod.fst).Nodup) 0
      (by decide) (by decide)⟩,
   ⟨((session_removal_accounted "pw" (Event.cancel 0)).2 st2).1 (by decide),
    ((session_removal_accounted "pw" (Event.cancel 0)).2 st2).2
      (by decide : (st2.uploadSessions.map Prod.fst).Nodup) 0
      (by decide) (by decide)⟩⟩

/-- The `isFirstTimeSetup` flag of `src/main.go` is only ever cleared,
never set, by a dispatch. -/
theorem V1.step_flag_cases (envPw : String) (s : V1.BotState) (e : Event) :
    (V1.step envPw s e).1.isFirstTimeSetup = s.isFirstTimeSetup ∨
    (V1.step envPw s e).1.isFirstTimeSetup = false := by
  cases e <;> simp only [V1.step] <;> (repeat' split) <;> simp

/-- A dispatch of `src/unnamed/part_000` keeps all allocation ids below the
allocation counter. -/
theorem V2.step_sidsFresh (envPw : String) (s : V2.BotState) (e : Event)
    (h : V2.sidsFresh s = true) : V2.sidsFresh (V2.step envPw s e).1 = true := by
  rcases V2.step_store_cases_v2 envPw s e with ⟨hst, hn⟩ | ⟨c, n, _, hst, hn⟩ |
    ⟨c, csess, hc, _, _, hst, hn⟩ | ⟨c, csess, hc, _, _, hst, hn⟩ |
    ⟨c, rsess, _, _, hst, hn, _⟩
  · rw [V2.sidsFresh, hst, hn]
    exact h
  · have hweaken : s.uploadSessions.all (fun p => decide (p.2.sid < s.nextSid + 1)) = true := by
      rw [V2.sidsFresh, List.all_eq_true] at h
      rw [List.all_eq_true]
      intro p hp
      have := of_decide_eq_true (h p hp)
      exact decide_eq_true (by omega)
    rw [V2.sidsFresh, hst, hn]
    exact all_putS hweaken (decide_eq_true (Nat.lt_succ_self _))
  · have hlt := V2.sidsFresh_lt_v2 h hc
    rw [V2.sidsFresh, hst, hn]
    exact all_putS h (decide_eq_true hlt)
  · have hlt := V2.sidsFresh_lt_v2 h hc
    rw [V2.sidsFresh, hst, hn]
    exact all_putS h (decide_eq_true hlt)
  · rw [V2.sidsFresh, hst, hn]
    exact all_removeS h

/-- The allocation counter of `src/unnamed/part_000` never decreases. -/
theorem V2.step_nextSid_le (envPw : String) (s : V2.BotState) (e : Event) :
    s.nextSid ≤ (V2.step envPw s e).1.nextSid := by
  rcases V2.step_store_cases_v2 envPw s e with ⟨_, hn⟩ | ⟨c, n, _, _, hn⟩ |
    ⟨c, csess, _, _, _, _, hn⟩ | ⟨c, csess, _, _, _, _, hn⟩ |
    ⟨c, rsess, _, _, _, hn, _⟩ <;> omega

/-- One dispatch of `src/unnamed/part_000` preserves the invariant that
every session stored under `cid` with allocation id `sid0` is
authenticated, provided `sid0` is an already-used id. -/
theorem V2.step_auth_mono (envPw : String) (s : V2.BotState) (e : Event)
    (cid : Int) (sid0 : Nat) (hlt : sid0 < s.nextSid)
    (hinv : ∀ sess, getS s.uploadSessions cid = some sess → sess.sid = sid0 →
      sess.authenticated = true) :
    ∀ sess', getS (V2.step envPw s e).1.uploadSessions cid = some sess' →
      sess'.sid = sid0 → sess'.authenticated = true := by
  intro sess' hget' hsid
  rcases V2.step_store_cases_v2 envPw s e with ⟨hst, _⟩ | ⟨c, n, _, hst, _⟩ |
    ⟨c, csess, hc, _, hcauth, hst, _⟩ | ⟨c, csess, hc, _, _, hst, _⟩ |
    ⟨c, rsess, _, _, hst, _, _⟩
  · rw [hst] at hget'
    exact hinv sess' hget' hsid
  · rw [hst] at hget'
    by_cases hcc : cid = c
    · subst hcc
      rw [getS_putS_self] at hget'
      injection hget' with h
      subst h
      have hx : s.nextSid = sid0 := hsid
      exact absurd hx (by omega)
    · rw [getS_putS_ne _ _ _ _ hcc] at hget'
      exact hinv sess' hget' hsid
  · rw [hst] at hget'
    by_cases hcc : cid = c
    · subst hcc
      rw [getS_putS_self] at hget'
      injection hget' with h
      subst h
      exact hcauth
    · rw [getS_putS_ne _ _ _ _ hcc] at hget'
      exact hinv sess' hget' hsid
  · rw [hst] at hget'
    by_cases hcc : cid = c
    · subst hcc
      rw [getS_putS_self] at hget'
      injection hget' with h
      subst h
      rfl
    · rw [getS_putS_ne _ _ _ _ hcc] at hget'
      exact hinv sess' hget' hsid
  · rw [hst, getS_removeS] at hget'
    by_cases hcc : cid = c
    · rw [if_pos hcc] at hget'
      exact absurd hget' (by simp)
    · rw [if_neg hcc] at hget'
      exact hinv sess' hget' hsid

/-- Claim C10: authentication is monotone. In `src/main.go`, once the
process-wide `isFirstTimeSetup` flag is cleared, no event sequence sets it
again. In `src/unnamed/part_000`, once a session object (tracked by its
allocation id) is authenticated, no event sequence ever yields that object
un-authenticated for the rest of its lifetime in the store. -/
theorem authentication_is_monotone (envPw : String) (es : List Event) :
    (∀ s : V1.BotState, s.isFirstTimeSetup = false →
      (V1.run envPw s es).isFirstTimeSetup = false) ∧
    (∀ (s : V2.BotState) (cid : Int) (sess : V2.UploadSession),
      V2.sidsFresh s = true →
      getS s.uploadSessions cid = some sess → sess.authenticated = true →
      ∀ sess', getS (V2.run envPw s es).uploadSessions cid = some sess' →
        sess'.sid = sess.sid → sess'.authenticated = true) := by
  constructor
  · induction es with
    | nil => intro s h; exact h
    | cons e rest ih =>
      intro s h
      have h1 : (V1.step envPw s e).1.isFirstTimeSetup = false := by
        rcases V1.step_flag_cases envPw s e with hc | hc
        · rw [hc]; exact h
        · exact hc
      exact ih (V1.step envPw s e).1 h1
  · have main : ∀ (es : List Event) (s : V2.BotState) (cid : Int) (sid0 : Nat),
        V2.sidsFresh s = true → sid0 < s.nextSid →
        (∀ sess, getS s.uploadSessions cid = some sess → sess.sid = sid0 →
          sess.authenticated = true) →
        ∀ sess', getS (V2.run envPw s es).uploadSessions cid = some sess' →
          sess'.sid = sid0 → sess'.authenticated = true := by
      intro es
      induction es with
      | nil => intro s cid sid0 _ _ hinv; exact hinv
      | cons e rest ih =>
        intro s cid sid0 hfresh hlt hinv
        exact ih (V2.step envPw s e).1 cid sid0 (V2.step_sidsFresh envPw s e hfresh)
          (Nat.lt_of_lt_of_le hlt (V2.step_nextSid_le envPw s e))
          (V2.step_auth_mono envPw s e cid sid0 hlt hinv)
    intro s cid sess hfresh hget hauth
    refine main es s cid sess.sid hfresh (V2.sidsFresh_lt_v2 hfresh hget) ?_
    intro sess0 hget0 hsid0
    rw [hget] at hget0
    injection hget0 with h
    subst h
    exact hauth

theorem authentication_is_monotone_witness :
    (V1.run "pw" st1 [Event.upload 0 11]).isFirstTimeSetup = false ∧
    (true : Bool) = true :=
  ⟨(authentication_is_monotone "pw" [Event.upload 0 11]).1 st1 rfl,
   (authentication_is_monotone "pw" [Event.document 0 "a.jar" true true]).2 st2 0
      ⟨0, 0, true, 2, 9, true⟩ (by decide) (by decide) rfl
      ⟨0, 0, true, 3, 9, true⟩ (by decide) rfl⟩

end ModUploader
